import Mathlib

/-!
Shallow embedding of the SSD1306 display driver (`src/lcd/ssd1306.cpp`).

The framebuffer is modelled as a function `Nat → Nat` giving the byte stored
at each index; bytes are `u8` values, i.e. naturals below 256 (writes that can
overflow 8 bits in the C++ source truncate with `% 256` here; writes that
provably cannot overflow are left untruncated, matching the `u8` result).
Pixel coordinates and levels are naturals; `u8` masking from the source is
kept literally (`&&& 0x7f`, `&&& 0x3f`, ...).
-/

set_option maxRecDepth 8000

namespace SSD1306

/-- Functional update of one framebuffer byte: `fb[a] = v`. -/
def setByte (fb : Nat → Nat) (a v : Nat) : Nat → Nat :=
  fun x => if x = a then v else fb x

/-- The framebuffer right after construction: `mFramebuffer{0x40}` sets byte 0
to `0x40` (the data-mode control marker) and zero-initializes the rest. -/
def initialFramebuffer : Nat → Nat :=
  fun a => if a = 0 then 0x40 else 0

/-- The byte offset addressed by `SetPixel`/`ClearPixel` after the masks
`nX &= 0x7f; nY &= 0x3f`: `((nY & 0xf8) << 4) + nX + 1`. -/
def pixelOffset (x y : Nat) : Nat :=
  (((y &&& 0x3f) &&& 0xf8) <<< 4) + (x &&& 0x7f) + 1

/-- The in-byte bit position addressed by `SetPixel`/`ClearPixel`: `nY & 7`
after the mask `nY &= 0x3f`. -/
def pixelBit (y : Nat) : Nat :=
  (y &&& 0x3f) &&& 7

/-- `CSSD1306::SetPixel`: OR `1 << (nY & 7)` into the addressed byte. -/
def SetPixel (x y : Nat) (fb : Nat → Nat) : Nat → Nat :=
  setByte fb (pixelOffset x y) (fb (pixelOffset x y) ||| (1 <<< pixelBit y))

/-- `CSSD1306::ClearPixel`: AND the addressed byte with `~(1 << (nY & 7))`;
on an 8-bit byte the complement mask is `0xff ^^^ (1 <<< bit)`. -/
def ClearPixel (x y : Nat) (fb : Nat → Nat) : Nat → Nat :=
  setByte fb (pixelOffset x y) (fb (pixelOffset x y) &&& (0xff ^^^ (1 <<< pixelBit y)))

/-- `SingleColumn` (anonymous namespace of ssd1306.cpp): gather bit
`5 - nColumn` of each of the 8 rows of the character data into an 8-bit
column value (row `i` → bit `i`). -/
def SingleColumn (charData : Nat → Nat) (nColumn : Nat) : Nat :=
  (List.range 8).foldl
    (fun column i => column ||| (((charData i >>> (5 - nColumn)) &&& 1) <<< i)) 0

/-- The loop body of `DoubleColumn` factored over the already computed
`singleColumn` value: duplicate bit `i` into bits `2i` and `2i+1`. -/
def doubleFromSingle (singleColumn : Nat) : Nat :=
  (List.range 8).foldl
    (fun column i =>
      let bit := (singleColumn >>> i) &&& 1
      column ||| (bit <<< (i * 2)) ||| (bit <<< (i * 2 + 1))) 0

/-- `DoubleColumn` (anonymous namespace of ssd1306.cpp): double the height of
a glyph column by duplicating each bit of `SingleColumn` into two adjacent
bits of a 16-bit value. -/
def DoubleColumn (charData : Nat → Nat) (nColumn : Nat) : Nat :=
  doubleFromSingle (SingleColumn charData nColumn)

/-- `CSSD1306::InitSequence`: the fixed initialization command bytes, in
source order. -/
def InitSequence : List Nat :=
  [0xAE, 0x81, 0x7F, 0xA6, 0x20, 0x0, 0x21, 0x00, 0x7F, 0x22, 0x00, 0x03,
   0xA1, 0xA8, 0x1F, 0xC8, 0xD3, 0x00, 0xDA, 0x02, 0xD5, 0x80, 0xD9, 0x22,
   0xDB, 0x20, 0x8D, 0x14, 0xA4, 0xAF]

/-- Outcome of `CSSD1306::Initialize`: either the `assert(mI2CMaster !=
nullptr)` fires (no value is returned at all), or the function returns
`success` after performing `writes`, each write being the byte list handed to
`mI2CMaster->Write`. -/
inductive InitResult where
  | assertFailed : InitResult
  | done : Bool → List (List Nat) → InitResult
deriving DecidableEq

/-- `CSSD1306::Initialize`, with the bus handle abstracted to presence
(`hasMaster`): the source first asserts the handle is non-null, then returns
`false` if the height is neither 32 nor 64, and otherwise sends every byte of
`InitSequence` as a two-byte write `{0x80, byte}` and returns `true`. -/
def Initialize (hasMaster : Bool) (height : Nat) : InitResult :=
  if hasMaster = false then InitResult.assertFailed
  else if ¬(height = 32 ∨ height = 64) then InitResult.done false []
  else InitResult.done true (InitSequence.map (fun b => [0x80, b]))

/-- Whether an `Initialize` outcome is a failure *return* (`return false`). -/
def isFailureReturn : InitResult → Bool
  | InitResult.done false _ => true
  | _ => false

/-- The font-table index computed by `CSSD1306::DrawChar`: remap `'\xFF'` to
`'\x80'`, then `static_cast<u8>(chChar - ' ')`, i.e. `(c - 32) mod 256`
(written `(c + 224) % 256` to keep the wrap-around of the unsigned cast). -/
def drawCharGlyphIndex (c : Nat) : Nat :=
  ((if c = 0xFF then 0x80 else c) + 224) % 256

/-- Modelled from the spec: the font table `Font6x8` lives in
`lcd/font6x8.h`, which is not among the sources here. The spec's data model
keys glyphs by `code − space-character code` over the supported range, and
the source remaps the undefined character `'\xFF'` to the placeholder
`'\x80'` ("FIXME: Won't be needed when the full font is implemented"), so the
table covers the character codes `0x20`..`0x80`: 97 glyph entries. -/
def fontTableSize : Nat := 97

/-- `CSSD1306::DrawChar`, with the precomputed double-height font table
abstracted as `fontDouble : index → column → u16 value`. Mirrors the source:
row/column byte offsets, the `0x3FFF` inversion mask applied to columns 1-5
only, low byte to the upper page and high byte 128 bytes further, and the
double-width replication into the adjacent byte. -/
def DrawChar (fontDouble : Nat → Nat → Nat) (c x y : Nat)
    (inverted doubleWidth : Bool) (fb : Nat → Nat) : Nat → Nat :=
  let rowOffset := y * 128 * 2
  let columnOffset := x * (if doubleWidth then 12 else 6) + 4
  (List.range 6).foldl
    (fun f i =>
      let fontColumn0 := fontDouble (drawCharGlyphIndex c) i
      let fontColumn := if 0 < i ∧ inverted = true then fontColumn0 ^^^ 0x3FFF else fontColumn0
      let offset := rowOffset + columnOffset + (if doubleWidth then i * 2 else i)
      let f1 := setByte f offset (fontColumn &&& 0xFF)
      let f2 := setByte f1 (offset + 128) ((fontColumn >>> 8) &&& 0xFF)
      if doubleWidth then
        setByte (setByte f2 (offset + 1) (f2 offset)) (offset + 128 + 1) (f2 (offset + 128))
      else f2) fb

/-- The first loop of `CSSD1306::Print` as a draw trace: while the current
character is non-NUL and the cursor column is below 20, record a
`DrawChar(c, x, y)` event and advance; return the events and the final
cursor column. -/
def printTrace : List Nat → Nat → Nat → List (Nat × Nat × Nat) × Nat
  | [], x, _ => ([], x)
  | c :: rest, x, y =>
    if c ≠ 0 ∧ x < 20 then
      let r := printTrace rest (x + 1) y
      ((c, x, y) :: r.1, r.2)
    else ([], x)

/-- `CSSD1306::Print` as a draw trace: the character loop, then (when
`clearLine`) blank glyphs (`' '` = 32) for the remaining columns up to 20;
the returned Bool records whether `WriteFramebuffer` is triggered
(`bImmediate`). -/
def Print (text : List Nat) (x y : Nat) (clearLine immediate : Bool) :
    List (Nat × Nat × Nat) × Bool :=
  let r := printTrace text x y
  (r.1 ++ (if clearLine then (List.range (20 - r.2)).map (fun j => (32, r.2 + j, y)) else []),
   immediate)

/-- The character loop of `CSSD1306::Print` acting on the framebuffer:
`DrawChar` with the default `bInverted = false, bDoubleWidth = false`. -/
def printChars (fontDouble : Nat → Nat → Nat) :
    List Nat → Nat → Nat → (Nat → Nat) → (Nat → Nat) × Nat
  | [], x, _, fb => (fb, x)
  | c :: rest, x, y, fb =>
    if c ≠ 0 ∧ x < 20 then
      printChars fontDouble rest (x + 1) y (DrawChar fontDouble c x y false false fb)
    else (fb, x)

/-- The `bClearLine` loop of `CSSD1306::Print` acting on the framebuffer. -/
def printClear (fontDouble : Nat → Nat → Nat) (x y : Nat) (fb : Nat → Nat) : Nat → Nat :=
  (List.range (20 - x)).foldl
    (fun f j => DrawChar fontDouble 32 (x + j) y false false f) fb

/-- `CSSD1306::Print` acting on the framebuffer (the `bImmediate` bus write
does not change the buffer). -/
def PrintFB (fontDouble : Nat → Nat → Nat) (text : List Nat) (x y : Nat)
    (clearLine : Bool) (fb : Nat → Nat) : Nat → Nat :=
  let r := printChars fontDouble text x y fb
  if clearLine then printClear fontDouble r.2 y r.1 else r.1

/-- The bar-graph bytes of `CSSD1306::DrawPartLevels` for one channel level:
`(topVal, bottomVal)` as assigned by the `if (mPartLevels[i] > 8)` branch,
with the `u8` truncation of `0xFF << ...` made explicit. -/
def barBytes (level : Nat) : Nat × Nat :=
  if level > 8 then ((0xFF <<< (8 - (level - 8))) % 256, 0xFF)
  else (0, (0xFF <<< (8 - level)) % 256)

/-- The peak-meter adjustment of `CSSD1306::DrawPartLevels`: OR a single bit
for the peak into the top or bottom byte (`u8` truncation explicit). -/
def peakOr (peak : Nat) (tb : Nat × Nat) : Nat × Nat :=
  if peak > 8 then ((tb.1 ||| (1 <<< (8 - (peak - 8)))) % 256, tb.2)
  else (tb.1, (tb.2 ||| (1 <<< (8 - peak))) % 256)

/-- `CSSD1306::DrawPartLevels`: for each of the 9 channels compute the bar
bytes, and — only inside the `if (bDrawPeaks)` block, exactly as in the
source — OR in the peak bit and store the two bytes across the channel's 12
columns. -/
def DrawPartLevels (drawPeaks : Bool) (partLevels peakLevels : Nat → Nat)
    (fb : Nat → Nat) : Nat → Nat :=
  (List.range 9).foldl
    (fun f i =>
      let tb := barBytes (partLevels i)
      if drawPeaks then
        let tb2 := peakOr (peakLevels i) tb
        (List.range 12).foldl
          (fun g j =>
            setByte (setByte g (256 + i * 14 + j + 3) tb2.1)
              (256 + i * 14 + j + 128 + 3) tb2.2) f
      else f) fb

/-- `CSSD1306::Clear`: zero-fill bytes 1 .. `mHeight * 16` (the drawable
region after the control byte). -/
def Clear (height : Nat) (fb : Nat → Nat) : Nat → Nat :=
  fun a => if 1 ≤ a ∧ a < height * 16 + 1 then 0 else fb a

/-- The draw events produced by printing a character list starting at a given
column: one `DrawChar` per character at consecutive columns. -/
def withColumns : List Nat → Nat → Nat → List (Nat × Nat × Nat)
  | [], _, _ => []
  | c :: rest, x, y => (c, x, y) :: withColumns rest (x + 1) y

end SSD1306

namespace SSD1306

/-! Helper lemmas -/

theorem or_lt_256 (a b : Nat) (ha : a < 256) (hb : b < 256) : a ||| b < 256 := by
  have h8 : (256 : Nat) = 2 ^ 8 := by norm_num
  rw [h8] at ha hb ⊢
  exact Nat.or_lt_two_pow ha hb

theorem setByte_apply_zero (g : Nat → Nat) (a v : Nat) (h : a ≠ 0) :
    setByte g a v 0 = g 0 := by
  unfold setByte
  exact if_neg (fun hh => h hh.symm)

theorem foldl_apply_zero {α : Type} (step : (Nat → Nat) → α → Nat → Nat) (l : List α)
    (fb : Nat → Nat) (h : ∀ g a, step g a 0 = g 0) : l.foldl step fb 0 = fb 0 := by
  induction l generalizing fb with
  | nil => rfl
  | cons a l ih =>
    rw [List.foldl_cons, ih (step fb a)]
    exact h fb a

theorem mask63_eq_mod (y : Nat) : y &&& 0x3f = y % 64 := by
  simpa using Nat.and_pow_two_sub_one_eq_mod y 6

theorem mask127_eq_mod (x : Nat) : x &&& 0x7f = x % 128 := by
  simpa using Nat.and_pow_two_sub_one_eq_mod x 7

theorem mask7_eq_mod (z : Nat) : z &&& 7 = z % 8 := by
  simpa using Nat.and_pow_two_sub_one_eq_mod z 3

theorem mask248_eq (z : Nat) (h : z < 64) : z &&& 0xf8 = z - z % 8 := by
  revert h
  revert z
  decide

theorem pixelOffset_eq (x y : Nat) :
    pixelOffset x y = (y % 64 - y % 64 % 8) * 16 + x % 128 + 1 := by
  unfold pixelOffset
  rw [mask63_eq_mod, mask127_eq_mod, mask248_eq (y % 64) (Nat.mod_lt y (by norm_num)),
    Nat.shiftLeft_eq]

theorem pixelBit_eq (y : Nat) : pixelBit y = y % 64 % 8 := by
  unfold pixelBit
  rw [mask63_eq_mod, mask7_eq_mod]

/-! Claim theorems -/

/-- C1 (code bug): at the failing input `bDrawPeaks = false`, with every
channel level 8, `DrawPartLevels` leaves the framebuffer untouched — byte 387
(channel 0, bottom page, first column) stays 0 even though the computed
bottom bar byte for level 8 is 0xFF; with `bDrawPeaks = true` the same byte
is written to 0xFF. The 12-column store loop sits inside the
`if (bDrawPeaks)` block, so the claim that the level bar is drawn for every
value of the flag fails on this source. -/
theorem C1_bars_not_drawn_without_peaks :
    DrawPartLevels false (fun _ => 8) (fun _ => 0) (fun _ => 0) 387 = 0 ∧
    DrawPartLevels true (fun _ => 8) (fun _ => 0) (fun _ => 0) 387 = 255 ∧
    (barBytes 8).2 = 255 := by
  decide

/-- C2 (counterexample): when the addressed bit is already set beforehand,
`SetPixel` then `ClearPixel` does not restore the prior framebuffer: starting
from a buffer with pixel (0,0) set, the byte at offset 1 ends as 0, not 1. -/
theorem C2_counterexample :
    ClearPixel 0 0 (SetPixel 0 0 (SetPixel 0 0 initialFramebuffer)) 1 ≠
      SetPixel 0 0 initialFramebuffer 1 := by
  decide

/-- C2 (amended): `SetPixel` is idempotent for every framebuffer and
coordinate; `SetPixel` followed by `ClearPixel` at the same coordinate
restores the prior framebuffer exactly when the addressed bit was clear
beforehand (the byte being a `u8` value below 256). -/
theorem C2_set_clear_pixel (x y : Nat) (fb : Nat → Nat) :
    SetPixel x y (SetPixel x y fb) = SetPixel x y fb ∧
    (fb (pixelOffset x y) < 256 → fb (pixelOffset x y) &&& (1 <<< pixelBit y) = 0 →
      ClearPixel x y (SetPixel x y fb) = fb) := by
  have hread : SetPixel x y fb (pixelOffset x y) =
      fb (pixelOffset x y) ||| (1 <<< pixelBit y) := by
    unfold SetPixel setByte
    simp
  constructor
  · funext a
    show setByte (SetPixel x y fb) (pixelOffset x y)
        (SetPixel x y fb (pixelOffset x y) ||| (1 <<< pixelBit y)) a =
      SetPixel x y fb a
    rw [hread]
    by_cases ha : a = pixelOffset x y
    · subst ha
      unfold SetPixel setByte
      simp [Nat.or_assoc, Nat.or_self]
    · unfold setByte
      rw [if_neg ha]
  · intro hlt hcl
    have hbit : pixelBit y ≤ 7 := by
      unfold pixelBit
      exact Nat.and_le_right
    have key : ∀ v, v < 256 → ∀ bt, bt ≤ 7 → v &&& (1 <<< bt) = 0 →
        (v ||| (1 <<< bt)) &&& (0xff ^^^ (1 <<< bt)) = v := by
      decide
    funext a
    show setByte (SetPixel x y fb) (pixelOffset x y)
        (SetPixel x y fb (pixelOffset x y) &&& (0xff ^^^ (1 <<< pixelBit y))) a = fb a
    rw [hread]
    by_cases ha : a = pixelOffset x y
    · subst ha
      unfold setByte
      simp only [if_pos rfl]
      exact key _ hlt _ hbit hcl
    · unfold SetPixel setByte
      rw [if_neg ha, if_neg ha]

/-- C2 (witness): the amended theorem applied at (0,0) on the freshly
constructed framebuffer, whose addressed bit is clear. -/
theorem C2_set_clear_pixel_witness :
    (SetPixel 0 0 (SetPixel 0 0 initialFramebuffer) = SetPixel 0 0 initialFramebuffer) ∧
    ClearPixel 0 0 (SetPixel 0 0 initialFramebuffer) = initialFramebuffer :=
  ⟨(C2_set_clear_pixel 0 0 initialFramebuffer).1,
   (C2_set_clear_pixel 0 0 initialFramebuffer).2 (by decide) (by decide)⟩

/-- C3 (counterexample): with the bus handle absent, `Initialize` hits
`assert(mI2CMaster != nullptr)` — it is not a failure return
(`return false`), contradicting the claim that an absent handle makes
`Initialize` return failure. -/
theorem C3_counterexample :
    Initialize false 32 = InitResult.assertFailed ∧
    isFailureReturn (Initialize false 32) = false := by
  decide

/-- C3 (amended): with the handle present, `Initialize` returns failure
whenever the stored height is neither 32 nor 64; an absent handle triggers
the assertion instead of a failure return; when the height is 32 or 64 and
the handle is present, it returns success after transmitting every byte of
`InitSequence`, in order, each as a two-byte write prefixed by 0x80. -/
theorem C3_init_behavior (height : Nat) :
    (height ≠ 32 → height ≠ 64 → Initialize true height = InitResult.done false []) ∧
    Initialize false height = InitResult.assertFailed ∧
    ((height = 32 ∨ height = 64) →
      Initialize true height = InitResult.done true (InitSequence.map (fun b => [0x80, b]))) := by
  refine ⟨?_, ?_, ?_⟩
  · intro h32 h64
    simp [Initialize, h32, h64]
  · simp [Initialize]
  · rintro (rfl | rfl) <;> decide

/-- C3 (witness): the amended theorem at heights 48 and 32. -/
theorem C3_init_behavior_witness :
    Initialize true 48 = InitResult.done false [] ∧
    Initialize false 48 = InitResult.assertFailed ∧
    Initialize true 32 = InitResult.done true (InitSequence.map (fun b => [0x80, b])) :=
  ⟨(C3_init_behavior 48).1 (by decide) (by decide), (C3_init_behavior 48).2.1,
   (C3_init_behavior 32).2.2 (Or.inl rfl)⟩

/-- C4 (counterexample): the character 0x81 has no defined glyph, is not
remapped by `DrawChar` (only 0xFF is), and its lookup index equals the table
size 97 — out of range. -/
theorem C4_counterexample : ¬(drawCharGlyphIndex 0x81 < fontTableSize) := by
  decide

/-- C4 (amended): the lookup index stays within the font table exactly for
the characters with a defined glyph (codes 0x20..0x80) and for 0xFF, the one
character `DrawChar` remaps to the placeholder; other character codes are
not remapped and index past the table. -/
theorem C4_glyph_index_in_range (c : Nat)
    (h : (0x20 ≤ c ∧ c ≤ 0x80) ∨ c = 0xFF) :
    drawCharGlyphIndex c < fontTableSize := by
  rcases h with ⟨h1, h2⟩ | rfl
  · have hne : c ≠ 0xFF := by omega
    unfold drawCharGlyphIndex fontTableSize
    rw [if_neg hne]
    omega
  · decide

/-- C4 (witness): the amended theorem at the character code of the letter A. -/
theorem C4_glyph_index_in_range_witness : drawCharGlyphIndex 0x41 < fontTableSize :=
  C4_glyph_index_in_range 0x41 (Or.inl (by decide))

/-- C5: `SetPixel` reduces x mod 128 and y mod 64 by the masks, ORs
`1 << (y & 7)` into the framebuffer byte at offset `((y & 0xF8) << 4) + x + 1`
(written in mod/div form), `ClearPixel` ANDs the complement of the same bit
at the same offset, and the coordinates wrap: `SetPixel(128,0)` mutates the
buffer as `SetPixel(0,0)` and `SetPixel(0,64)` behaves as `SetPixel(0,0)`. -/
theorem C5_pixel_addressing (x y : Nat) (fb : Nat → Nat) :
    SetPixel x y fb =
      setByte fb ((y % 64 - y % 64 % 8) * 16 + x % 128 + 1)
        (fb ((y % 64 - y % 64 % 8) * 16 + x % 128 + 1) ||| (1 <<< (y % 64 % 8))) ∧
    ClearPixel x y fb =
      setByte fb ((y % 64 - y % 64 % 8) * 16 + x % 128 + 1)
        (fb ((y % 64 - y % 64 % 8) * 16 + x % 128 + 1) &&& (0xff ^^^ (1 <<< (y % 64 % 8)))) ∧
    SetPixel 128 0 fb = SetPixel 0 0 fb ∧
    SetPixel 0 64 fb = SetPixel 0 0 fb := by
  refine ⟨?_, ?_, rfl, rfl⟩
  · unfold SetPixel
    rw [pixelOffset_eq, pixelBit_eq]
  · unfold ClearPixel
    rw [pixelOffset_eq, pixelBit_eq]

/-- C6: for every level L in 0..15, every bit set in the top-page or
bottom-page bar byte at level L is still set at level L+1 — raising a
channel level never clears a previously set bar bit. -/
theorem C6_bar_fill_monotone (L : Nat) (h : L < 16) :
    ∀ j, ((barBytes L).1.testBit j = true → (barBytes (L + 1)).1.testBit j = true) ∧
      ((barBytes L).2.testBit j = true → (barBytes (L + 1)).2.testBit j = true) := by
  have key : ∀ l, l < 16 →
      ((barBytes l).1 &&& (barBytes (l + 1)).1 = (barBytes l).1 ∧
       (barBytes l).2 &&& (barBytes (l + 1)).2 = (barBytes l).2) := by
    decide
  intro j
  constructor <;> intro hj
  · have h1 := congrArg (fun v => v.testBit j) (key L h).1
    simp only [Nat.testBit_and, hj, Bool.true_and] at h1
    exact h1
  · have h2 := congrArg (fun v => v.testBit j) (key L h).2
    simp only [Nat.testBit_and, hj, Bool.true_and] at h2
    exact h2

/-- C6 (witness): at level 5 the bottom byte has bit 7 set, and it is still
set at level 6. -/
theorem C6_bar_fill_monotone_witness : (barBytes 6).2.testBit 7 = true :=
  (C6_bar_fill_monotone 5 (by decide) 7).2 (by decide)

/-- C10: with 8-bit truncation explicit, level 0 yields the all-zero bar
pattern (`0xFF << 8` truncates to 0), and a peak of 0 with peak drawing
enabled ORs in `(1 << 8) % 256 = 0`, leaving both bytes unchanged. -/
theorem C10_zero_level_zero_peak :
    barBytes 0 = (0, 0) ∧
    (∀ t b : Nat, t < 256 → b < 256 → peakOr 0 (t, b) = (t, b)) := by
  constructor
  · decide
  · intro t b ht hb
    have key : ∀ bb, bb < 256 → (bb ||| 1 <<< (8 - 0)) % 256 = bb := by decide
    unfold peakOr
    rw [if_neg (by omega)]
    exact congrArg (Prod.mk t) (key b hb)

/-- C10 (witness): the theorem applied at the bar bytes of level 1. -/
theorem C10_zero_level_zero_peak_witness :
    barBytes 0 = (0, 0) ∧ peakOr 0 (0, 128) = (0, 128) :=
  ⟨C10_zero_level_zero_peak.1, C10_zero_level_zero_peak.2 0 128 (by decide) (by decide)⟩

end SSD1306

namespace SSD1306

/-! Print trace lemmas for C7 -/

theorem printTrace_within (text : List Nat) (y : Nat) :
    ∀ x, (∀ c ∈ text, c ≠ 0) → x + text.length ≤ 20 →
      printTrace text x y = (withColumns text x y, x + text.length) := by
  induction text with
  | nil =>
    intro x _ _
    simp [printTrace, withColumns]
  | cons c rest ih =>
    intro x hnz hlen
    have hc : c ≠ 0 := hnz c (by simp)
    have hx : x < 20 := by
      simp only [List.length_cons] at hlen
      omega
    rw [printTrace, if_pos ⟨hc, hx⟩,
      ih (x + 1) (fun d hd => hnz d (by simp [hd])) (by simp at hlen ⊢; omega)]
    simp only [withColumns, List.length_cons, Prod.mk.injEq, true_and]
    omega

theorem printTrace_clipped (text : List Nat) (y : Nat) :
    ∀ x, (∀ c ∈ text, c ≠ 0) → x ≤ 20 → 20 ≤ x + text.length →
      printTrace text x y = (withColumns (text.take (20 - x)) x y, 20) := by
  induction text with
  | nil =>
    intro x _ hx hlen
    simp only [List.length_nil, Nat.add_zero] at hlen
    have : x = 20 := by omega
    subst this
    simp [printTrace, withColumns]
  | cons c rest ih =>
    intro x hnz hx hlen
    by_cases hx20 : x < 20
    · have hc : c ≠ 0 := hnz c (by simp)
      rw [printTrace, if_pos ⟨hc, hx20⟩,
        ih (x + 1) (fun d hd => hnz d (by simp [hd])) (by omega)
          (by simp only [List.length_cons] at hlen; omega)]
      have htake : 20 - x = (20 - (x + 1)) + 1 := by omega
      rw [htake, List.take_succ_cons]
      simp [withColumns]
    · have hxeq : x = 20 := by omega
      subst hxeq
      rw [printTrace, if_neg (by omega)]
      have : 20 - 20 = 0 := by omega
      rw [this]
      simp [withColumns]

/-- C7: printing at column 0 draws at most 20 characters — a 30-character
string produces exactly the draw events of its first 20 characters at
columns 0..19 and stops; with line-clear enabled, a 5-character string is
followed by blank glyphs (space, code 32) at columns 5..19; the immediate
flag triggers the full framebuffer transmission after drawing. -/
theorem C7_print_draws (text : List Nat) (y : Nat) (clr imm : Bool)
    (hnz : ∀ c ∈ text, c ≠ 0) :
    (text.length = 30 → Print text 0 y false imm = (withColumns (text.take 20) 0 y, imm)) ∧
    (text.length = 5 → Print text 0 y true imm =
      (withColumns text 0 y ++ (List.range 15).map (fun j => (32, 5 + j, y)), imm)) ∧
    (Print text 0 y clr true).2 = true := by
  refine ⟨?_, ?_, ?_⟩
  · intro h30
    unfold Print
    rw [printTrace_clipped text y 0 hnz (by omega) (by omega)]
    simp
  · intro h5
    unfold Print
    rw [printTrace_within text y 0 hnz (by omega)]
    simp [h5]
  · simp [Print]

/-- C7 (witness): the theorem applied to the 30-character and 5-character
all-`A` strings at row 0. -/
theorem C7_print_draws_witness :
    Print (List.replicate 30 65) 0 0 false false =
      (withColumns ((List.replicate 30 65).take 20) 0 0, false) ∧
    Print (List.replicate 5 65) 0 0 true false =
      (withColumns (List.replicate 5 65) 0 0 ++ (List.range 15).map (fun j => (32, 5 + j, 0)),
        false) ∧
    (Print (List.replicate 5 65) 0 0 false true).2 = true :=
  ⟨(C7_print_draws (List.replicate 30 65) 0 false false (by decide)).1 (by decide),
   (C7_print_draws (List.replicate 5 65) 0 false false (by decide)).2.1 (by decide),
   (C7_print_draws (List.replicate 5 65) 0 false true (by decide)).2.2⟩

/-! Font column lemmas for C8 -/

theorem masked_shift_lt (v i : Nat) (h : i < 8) : ((v &&& 1) <<< i) < 256 := by
  have h1 : v &&& 1 ≤ 1 := Nat.and_le_right
  rw [Nat.shiftLeft_eq]
  have h2 : (2 : Nat) ^ i ≤ 2 ^ 7 := Nat.pow_le_pow_right (by omega) (by omega)
  calc (v &&& 1) * 2 ^ i ≤ 1 * 2 ^ i := Nat.mul_le_mul_right _ h1
    _ = 2 ^ i := one_mul _
    _ ≤ 2 ^ 7 := h2
    _ < 256 := by norm_num

theorem singleColumn_lt_256 (charData : Nat → Nat) (nColumn : Nat) :
    SingleColumn charData nColumn < 256 := by
  unfold SingleColumn
  have hr : List.range 8 = [0, 1, 2, 3, 4, 5, 6, 7] := rfl
  rw [hr]
  simp only [List.foldl]
  repeat' apply or_lt_256
  all_goals first
    | omega
    | exact masked_shift_lt _ _ (by omega)

theorem doubleFromSingle_bits : ∀ s, s < 256 → ∀ b, b < 8 →
    ((doubleFromSingle s).testBit (2 * b) = s.testBit b ∧
     (doubleFromSingle s).testBit (2 * b + 1) = s.testBit b) := by
  decide

/-- C8: for every glyph (arbitrary 8-row character data) and every column,
bits `2b` and `2b+1` of the 16-bit double-height column both equal bit `b` of
the 8-bit single-height column, for every bit position `b` in 0..7. -/
theorem C8_double_column_bits (charData : Nat → Nat) (nColumn b : Nat) (hb : b < 8) :
    (DoubleColumn charData nColumn).testBit (2 * b) =
      (SingleColumn charData nColumn).testBit b ∧
    (DoubleColumn charData nColumn).testBit (2 * b + 1) =
      (SingleColumn charData nColumn).testBit b :=
  doubleFromSingle_bits (SingleColumn charData nColumn)
    (singleColumn_lt_256 charData nColumn) b hb

/-- C8 (witness): the theorem at the glyph whose every row is 0xAA, column 2,
bit 3. -/
theorem C8_double_column_bits_witness :
    (DoubleColumn (fun _ => 170) 2).testBit (2 * 3) =
      (SingleColumn (fun _ => 170) 2).testBit 3 ∧
    (DoubleColumn (fun _ => 170) 2).testBit (2 * 3 + 1) =
      (SingleColumn (fun _ => 170) 2).testBit 3 :=
  C8_double_column_bits (fun _ => 170) 2 3 (by decide)

end SSD1306

namespace SSD1306

/-! Byte-0 preservation lemmas for C9 -/

theorem setPixel_apply_zero (x y : Nat) (fb : Nat → Nat) : SetPixel x y fb 0 = fb 0 := by
  unfold SetPixel
  apply setByte_apply_zero
  unfold pixelOffset
  omega

theorem clearPixel_apply_zero (x y : Nat) (fb : Nat → Nat) : ClearPixel x y fb 0 = fb 0 := by
  unfold ClearPixel
  apply setByte_apply_zero
  unfold pixelOffset
  omega

theorem drawChar_apply_zero (fontDouble : Nat → Nat → Nat) (c x y : Nat)
    (inverted doubleWidth : Bool) (fb : Nat → Nat) :
    DrawChar fontDouble c x y inverted doubleWidth fb 0 = fb 0 := by
  unfold DrawChar
  apply foldl_apply_zero
  intro g i
  cases doubleWidth with
  | false =>
    simp only [Bool.false_eq_true, if_false]
    rw [setByte_apply_zero _ _ _ (by omega), setByte_apply_zero _ _ _ (by omega)]
  | true =>
    simp only [if_true]
    rw [setByte_apply_zero _ _ _ (by omega), setByte_apply_zero _ _ _ (by omega),
      setByte_apply_zero _ _ _ (by omega), setByte_apply_zero _ _ _ (by omega)]

theorem printChars_apply_zero (fontDouble : Nat → Nat → Nat) (text : List Nat) :
    ∀ x y fb, (printChars fontDouble text x y fb).1 0 = fb 0 := by
  induction text with
  | nil =>
    intro x y fb
    rfl
  | cons c rest ih =>
    intro x y fb
    rw [printChars]
    by_cases h : c ≠ 0 ∧ x < 20
    · rw [if_pos h, ih]
      exact drawChar_apply_zero fontDouble c x y false false fb
    · rw [if_neg h]

theorem printClear_apply_zero (fontDouble : Nat → Nat → Nat) (x y : Nat) (fb : Nat → Nat) :
    printClear fontDouble x y fb 0 = fb 0 := by
  unfold printClear
  apply foldl_apply_zero
  intro g j
  exact drawChar_apply_zero fontDouble 32 (x + j) y false false g

theorem printFB_apply_zero (fontDouble : Nat → Nat → Nat) (text : List Nat) (x y : Nat)
    (clearLine : Bool) (fb : Nat → Nat) :
    PrintFB fontDouble text x y clearLine fb 0 = fb 0 := by
  unfold PrintFB
  cases clearLine with
  | false =>
    simp only [Bool.false_eq_true, if_false]
    exact printChars_apply_zero fontDouble text x y fb
  | true =>
    simp only [if_true]
    rw [printClear_apply_zero]
    exact printChars_apply_zero fontDouble text x y fb

theorem drawPartLevels_apply_zero (drawPeaks : Bool) (partLevels peakLevels : Nat → Nat)
    (fb : Nat → Nat) : DrawPartLevels drawPeaks partLevels peakLevels fb 0 = fb 0 := by
  unfold DrawPartLevels
  apply foldl_apply_zero
  intro g i
  cases drawPeaks with
  | false => rfl
  | true =>
    simp only [if_true]
    apply foldl_apply_zero
    intro f j
    rw [setByte_apply_zero _ _ _ (by omega), setByte_apply_zero _ _ _ (by omega)]

theorem clear_apply_zero (height : Nat) (fb : Nat → Nat) : Clear height fb 0 = fb 0 := by
  unfold Clear
  rw [if_neg (by omega)]

/-- C9: framebuffer byte 0 equals the data-mode control marker 0x40 right
after construction, and every drawing and clearing operation — SetPixel,
ClearPixel, DrawChar, Print, DrawPartLevels, Clear — leaves byte 0 unchanged
(each writes only at offsets at least 1). -/
theorem C9_control_byte_invariant :
    initialFramebuffer 0 = 0x40 ∧
    (∀ x y fb, SetPixel x y fb 0 = fb 0) ∧
    (∀ x y fb, ClearPixel x y fb 0 = fb 0) ∧
    (∀ fontDouble c x y inverted doubleWidth fb,
      DrawChar fontDouble c x y inverted doubleWidth fb 0 = fb 0) ∧
    (∀ fontDouble text x y clearLine fb,
      PrintFB fontDouble text x y clearLine fb 0 = fb 0) ∧
    (∀ drawPeaks partLevels peakLevels fb,
      DrawPartLevels drawPeaks partLevels peakLevels fb 0 = fb 0) ∧
    (∀ height fb, Clear height fb 0 = fb 0) :=
  ⟨rfl, setPixel_apply_zero, clearPixel_apply_zero, drawChar_apply_zero,
   printFB_apply_zero, drawPartLevels_apply_zero, clear_apply_zero⟩

end SSD1306
